import Mathlib

/-!
Shallow embedding of the goldfire/healthcare.js repository.

Source files embedded: src/lib/healthcare.js (class Healthcare) and
src/lib/judiciary.js (class Judiciary, an earlier prototype of the same
control loop with slightly different predicates).

Modelling conventions:
- `this.servers` (the Server Registry) is a `List Server`; JS template-string
  comparisons on ids are string equality on the stored strings.
- Mutating IaaS calls issued by a handler are collected in a `List Call`
  in issue order; read-only calls (dropletsGetAll/dropletsGetById) are not
  tracked, their results arrive as event payloads.
- A handler that throws an uncaught JS exception is modelled as `none`
  (`Option`) or `Except.error`; the state at the throw point is recorded
  where a claim needs it.
- `shortid.generate()` is an external collaborator; it is modelled as an
  arbitrary token whose characters come from the alphabet that
  healthcare.js installs via `shortid.characters(...)` at module load.
-/

namespace Healthcare

/-- One v4 network record of a droplet payload (`server.networks.v4[i]`). -/
structure NetworkV4 where
  type : String
  ip_address : String
deriving DecidableEq, Repr

/-- The `networks` field of a droplet payload. -/
structure Networks where
  v4 : List NetworkV4
deriving DecidableEq, Repr

/-- The `region` field of a droplet payload. -/
structure Region where
  slug : String
deriving DecidableEq, Repr

/-- A droplet as returned by the DigitalOcean API (the fields `addServer`
reads). The provider id is numeric; `addServer` stringifies it. -/
structure Droplet where
  id : Nat
  name : String
  region : Region
  networks : Networks
  tags : List String
deriving DecidableEq, Repr

/-- An entry of the Server Registry `this.servers`, exactly the record built
by `addServer` (healthcare.js lines 200-216). -/
structure Server where
  id : String
  name : String
  region : String
  tags : List String
  privateIp : Option String
  publicIp : Option String
deriving DecidableEq, Repr

/-- A provisioning template (`options.config` of `group`), with the fields
that `create` (healthcare.js lines 310-327) forwards to `dropletsCreate`. -/
structure Config where
  name : String
  region : String
  size : String
  image : String
  ssh_keys : List String
  backups : Bool
  ipv6 : Bool
  private_networking : Bool
  user_data : String
  monitoring : Bool
  volumes : List String
  tags : List String
deriving DecidableEq, Repr

/-- Body of the floating-ip action request
(`\x7btype: 'assign', droplet_id: this.id\x7d`, healthcare.js lines 250-253). -/
structure FloatingIpBody where
  type : String
  droplet_id : String
deriving DecidableEq, Repr

/-- A mutating IaaS call issued by the agent. -/
inductive Call where
  | create (config : Config)
  | destroy (id : String)
  | floatingIpAction (ip : String) (body : FloatingIpBody)
deriving DecidableEq, Repr

/-- The record that `group` builds for the sub-election democracy
(healthcare.js lines 240-258): constructor options plus the calls its sole
`elected` subscriber issues. -/
structure SubDemocracy where
  id : String
  source : String
  peers : List String
  interval : Nat
  timeout : Nat
  onElected : List Call
deriving DecidableEq, Repr

/-- A registered group (healthcare.js line 227, with the `democracy` field
optionally attached at line 240). -/
structure Group where
  tags : List String
  size : Nat
  floatingIp : Option String
  config : Config
  democracy : Option SubDemocracy
deriving DecidableEq, Repr

/-- The payload of a democracy `removed` event that the handlers read
(`data.id`, `data.state`); these are also the entries buffered in
`this.pendingRemovals`. -/
structure RemovedData where
  id : String
  state : String
deriving DecidableEq, Repr

/-- The mutable state of one Healthcare agent: constructor fields plus the
fields `init` fills in (`this.id`, `this.localIp`, `this.tags`) and the
`firstRun` flag local to `setupDemocracy`. `tags = none` models the
pre-`init` condition where `this.tags` is still `undefined`; `isLeader`
models `this.democracy.isLeader()`. -/
structure AgentState where
  tag : String
  port : Nat
  id : String
  localIp : String
  tags : Option (List String)
  servers : List Server
  groups : List Group
  pendingRemovals : List RemovedData
  isLeader : Bool
  firstRun : Bool
deriving DecidableEq, Repr

/-- The alphabet healthcare.js installs at module load
(`shortid.characters(...)`, line 18): digits, letters, dash and dot. -/
def shortidCharacters : String :=
  "0123456789abcdefghijklmnopqrstuvwxyzABCDEFGHIJKLMNOPQRSTUVWXYZ-."

/-- The group-membership test used by `balance` (healthcare.js line 277) and
by the peer filter of `group` (line 234): every tag the server carries is in
the group tag list or is the literal string "healthcare". -/
def matchesGroup (gtags : List String) (s : Server) : Bool :=
  s.tags.all (fun tag => gtags.contains tag || tag == "healthcare")

/-- The members of a group: `this.servers.filter(s => s.tags.every(tag =>
group.tags.includes(tag) || tag === 'healthcare'))`. -/
def groupMembers (servers : List Server) (gtags : List String) : List Server :=
  servers.filter (fun s => matchesGroup gtags s)

/-- The calls `balance` issues (healthcare.js lines 275-292). `diff` is an
integer; `diff > 0` issues `diff` creates; `diff < 0` issues a destroy on
`servers[i]` for each `i < Math.abs(diff)`, i.e. on the prefix of the member
list of length `Math.abs(diff)` (which never exceeds the member count, so the
`take` below visits exactly the indices the JS loop does). -/
def balanceCalls (servers : List Server) (g : Group) : List Call :=
  let members := groupMembers servers g.tags
  let diff : Int := (g.size : Int) - (members.length : Int)
  if 0 < diff then
    (List.range diff.toNat).map (fun _ => Call.create g.config)
  else if diff < 0 then
    (members.take diff.natAbs).map (fun s => Call.destroy s.id)
  else []

/-- `balance` as a transition: the method mutates none of the agent state
(in particular it never touches `this.servers`), it only issues calls. -/
def balance (servers : List Server) (g : Group) : List Server × List Call :=
  (servers, balanceCalls servers g)

/-- `getServer` (healthcare.js lines 192-194). -/
def getServer (servers : List Server) (id : String) : Option Server :=
  servers.find? (fun s => s.id == id)

/-- The `findIndex` + `splice(index, 1)` removal in `handleRemoval`
(healthcare.js lines 127-130): remove the first entry with the given id,
if any. -/
def removeFirstById : List Server → String → List Server
  | [], _ => []
  | s :: rest, id => if s.id == id then rest else s :: removeFirstById rest id

/-- `addServer` (healthcare.js lines 200-216): project a droplet payload
into a Registry entry and push it. -/
def addServer (servers : List Server) (server : Droplet) : List Server :=
  let privateNet := server.networks.v4.find? (fun n => n.type == "private")
  let publicNet := server.networks.v4.find? (fun n => n.type == "public")
  servers ++ [{ id := toString server.id
                name := server.name
                region := server.region.slug
                tags := server.tags
                privateIp := privateNet.map (fun n => n.ip_address)
                publicIp := publicNet.map (fun n => n.ip_address) }]

/-- JS truthiness of a nullable string (`null`, `undefined` and `''` are
falsy). -/
def jsFalsyStr (a : Option String) : Bool :=
  match a with
  | none => true
  | some s => s == ""

/-- The JS expression `a || b` on nullable strings. -/
def jsOr (a b : Option String) : Option String :=
  if jsFalsyStr a then b else a

/-- Template-literal rendering of a nullable string (`null` renders as
"null"). -/
def jsToString : Option String → String
  | none => "null"
  | some s => s

/-- A peer endpoint string as built in `group` (healthcare.js line 235):
the private ip, falling back to the public ip, suffixed with the base port. -/
def peerEndpoint (s : Server) (port : Nat) : String :=
  jsToString (jsOr s.privateIp s.publicIp) ++ ":" ++ toString port

/-- `handleRemoval` (healthcare.js lines 119-136). When the id is unknown,
`getServer` returns `undefined` and `this.destroy(server.id)` throws an
uncaught TypeError: modelled as `none`. Otherwise: issue the destroy, drop
the first matching Registry entry, and re-balance every group all of whose
tags are among the departed server's tags or equal "healthcare". -/
def handleRemoval (st : AgentState) (d : RemovedData) : Option (AgentState × List Call) :=
  match getServer st.servers d.id with
  | none => none
  | some server =>
    let servers1 := removeFirstById st.servers d.id
    let affected := st.groups.filter (fun g =>
      g.tags.all (fun tag => server.tags.contains tag || tag == "healthcare"))
    some ({ st with servers := servers1 },
          Call.destroy server.id :: affected.flatMap (fun g => balanceCalls servers1 g))

/-- A democracy event as seen by the handlers installed in `setupDemocracy`.
The `added` event carries the droplet payload that the handler's
`dropletsGetById` fetch returns. -/
inductive Event where
  | added (id : String) (state : String) (fetched : Droplet)
  | removed (data : RemovedData)
  | elected
  | leader (id : String)
deriving DecidableEq, Repr

/-- The `forEach handleRemoval` drain of the pending-removal buffer inside
the `elected` handler (healthcare.js lines 157-159), threading the state and
concatenating calls in insertion order; a throw inside any step aborts the
whole handler (`none`). -/
def drainPending (st : AgentState) : List RemovedData → Option (AgentState × List Call)
  | [] => some (st, [])
  | d :: rest =>
    match handleRemoval st d with
    | none => none
    | some (st1, calls) =>
      match drainPending st1 rest with
      | none => none
      | some (st2, more) => some (st2, calls ++ more)

/-- One step of the agent: the four democracy handlers of `setupDemocracy`
(healthcare.js lines 103-178). `elected` marks the local agent leader,
`leader` marks it non-leader. -/
def step (st : AgentState) : Event → Option (AgentState × List Call)
  | Event.added id state fetched =>
    let st1 := if state == "leader"
      then { st with pendingRemovals := [], firstRun := false }
      else st
    if st1.servers.any (fun s => s.id == id) then some (st1, [])
    else some ({ st1 with servers := addServer st1.servers fetched }, [])
  | Event.removed d =>
    if !st.isLeader then
      if d.state == "leader" then
        some ({ st with pendingRemovals := st.pendingRemovals ++ [d] }, [])
      else
        some (st, [])
    else handleRemoval st d
  | Event.elected =>
    let st0 := { st with isLeader := true }
    match drainPending st0 st.pendingRemovals with
    | none => none
    | some (st1, calls) =>
      let st2 := { st1 with pendingRemovals := [] }
      if st2.firstRun then
        some ({ st2 with firstRun := false },
              calls ++ st2.groups.flatMap (fun g => balanceCalls st2.servers g))
      else some (st2, calls)
  | Event.leader _ =>
    some ({ st with pendingRemovals := [], isLeader := false, firstRun := false }, [])

/-- Run a list of events through `step`, concatenating the issued calls;
`none` if any handler throws. -/
def runTrace (st : AgentState) : List Event → Option (AgentState × List Call)
  | [] => some (st, [])
  | e :: rest =>
    match step st e with
    | none => none
    | some (st1, calls) =>
      match runTrace st1 rest with
      | none => none
      | some (st2, more) => some (st2, calls ++ more)

/-- Events that announce a leadership transition: a local win, a remote
leader announcement, or an `added` carrying `state === 'leader'`. -/
def isLeadershipEvent : Event → Bool
  | Event.elected => true
  | Event.leader _ => true
  | Event.added _ state _ => state == "leader"
  | Event.removed _ => false

/-- Events that report the removal of a peer that was leader. -/
def isLeaderRemoval : Event → Bool
  | Event.removed d => d.state == "leader"
  | _ => false

/-- The JS truthiness condition guarding the sub-election in `group`
(healthcare.js line 231): `floatingIp && floatingIp !== '' &&
thisServerInGroup`. -/
def fipTruthy : Option String → Bool
  | none => false
  | some s => s != ""

/-- The full guard of the sub-election branch of `group`. -/
def subCond (fip : Option String) (selfTags tags : List String) : Bool :=
  fipTruthy fip && selfTags.all (fun tag => tags.contains tag || tag == "healthcare")

/-- `group` (healthcare.js lines 226-268). Evaluation order follows the
source: the group record is built, then `this.tags.every(...)` is evaluated
(a TypeError when `this.tags` is still `undefined`, i.e. before `init`
resolved — the error carries the state at the throw point, which is
unchanged), then the optional sub-democracy is attached, the group is pushed,
and finally the leader re-balances it. -/
def group (st : AgentState) (tags : List String) (size : Nat) (floatingIp : Option String)
    (config : Config) : Except (String × AgentState) (AgentState × List Call) :=
  match st.tags with
  | none => Except.error ("TypeError: this.tags is undefined", st)
  | some selfTags =>
    let base : Group :=
      { tags := tags, size := size, floatingIp := floatingIp, config := config,
        democracy := none }
    let thisServerInGroup := selfTags.all (fun tag => tags.contains tag || tag == "healthcare")
    let g : Group :=
      match floatingIp with
      | some fip =>
        if (fip != "") && thisServerInGroup then
          let dem : SubDemocracy :=
            { id := st.id
              source := st.localIp ++ ":" ++ toString (st.port + st.groups.length)
              peers := (groupMembers st.servers tags).map (fun s => peerEndpoint s st.port)
              interval := 3000
              timeout := 10000
              onElected := [Call.floatingIpAction fip
                { type := "assign", droplet_id := st.id }] }
          { base with democracy := some dem }
        else base
      | none => base
    let st1 := { st with groups := st.groups ++ [g] }
    if st1.isLeader then Except.ok (st1, balanceCalls st1.servers g)
    else Except.ok (st1, [])

/-- The constructor (healthcare.js lines 32-47): options stored, empty
Registry, groups and buffer; `this.tags`, `this.id`, `this.localIp` are not
set yet (`tags = none`). -/
def constructorState (tag : String) (port : Nat) : AgentState :=
  { tag := tag, port := port, id := "", localIp := "", tags := none,
    servers := [], groups := [], pendingRemovals := [],
    isLeader := false, firstRun := true }

/-- The request body `create` sends (healthcare.js lines 313-326), given the
token the external `shortid.generate()` returned: the name is the template
base name, a dash, and the token. -/
def createRequest (config : Config) (token : String) : Config :=
  { config with name := config.name ++ "-" ++ token }

/-- The membership predicate exactly as the specification words it
(spec section 4.4 and testable property 5): a node with tag set T belongs to
the group iff every tag of T is in the group's matchTags or equals the
configured fleet tag. Stated only for comparison with the code's
`matchesGroup`, which hard-codes the literal tag "healthcare" instead of the
configured fleet tag. -/
def specMemberOf (fleetTag : String) (matchTags : List String) (T : List String) : Bool :=
  T.all (fun t => matchTags.contains t || t == fleetTag)

end Healthcare

namespace Judiciary

/-- A registered group of judiciary.js (line 196): no floating ip. -/
structure Group where
  tags : List String
  size : Nat
  config : Healthcare.Config
deriving DecidableEq, Repr

/-- The mutable state of one Judiciary agent (judiciary.js constructor plus
the `firstRun` flag local to its `setupDemocracy`). -/
structure AgentState where
  servers : List Healthcare.Server
  groups : List Group
  pendingRemovals : List Healthcare.RemovedData
  isLeader : Bool
  firstRun : Bool
deriving DecidableEq, Repr

/-- The membership test of judiciary's `balance` (judiciary.js line 214):
`s.tags.filter(tag => group.tags.includes(tag)).length` is truthy, i.e. the
server shares at least one tag with the group. -/
def sharesTag (gtags : List String) (s : Healthcare.Server) : Bool :=
  (s.tags.filter (fun tag => gtags.contains tag)).length != 0

/-- The calls judiciary's `balance` issues (judiciary.js lines 212-228). -/
def balanceCalls (servers : List Healthcare.Server) (g : Group) : List Healthcare.Call :=
  let members := servers.filter (fun s => sharesTag g.tags s)
  let diff : Int := (g.size : Int) - (members.length : Int)
  if 0 < diff then
    (List.range diff.toNat).map (fun _ => Healthcare.Call.create g.config)
  else if diff < 0 then
    (members.take diff.natAbs).map (fun s => Healthcare.Call.destroy s.id)
  else []

/-- Judiciary's `handleRemoval` (judiciary.js lines 92-110); the group
re-balance filter keeps the groups sharing at least one tag with the
departed server. -/
def handleRemoval (st : AgentState) (d : Healthcare.RemovedData) :
    Option (AgentState × List Healthcare.Call) :=
  match Healthcare.getServer st.servers d.id with
  | none => none
  | some server =>
    let servers1 := Healthcare.removeFirstById st.servers d.id
    let affected := st.groups.filter (fun g =>
      (g.tags.filter (fun tag => server.tags.contains tag)).length != 0)
    some ({ st with servers := servers1 },
          Healthcare.Call.destroy server.id ::
            affected.flatMap (fun g => balanceCalls servers1 g))

/-- The pending-removal drain of judiciary's `elected` handler. -/
def drainPending (st : AgentState) :
    List Healthcare.RemovedData → Option (AgentState × List Healthcare.Call)
  | [] => some (st, [])
  | d :: rest =>
    match handleRemoval st d with
    | none => none
    | some (st1, calls) =>
      match drainPending st1 rest with
      | none => none
      | some (st2, more) => some (st2, calls ++ more)

/-- One step of a Judiciary agent: the handlers of judiciary.js lines
80-152. Its `added` handler clears nothing; its `elected` handler has the
`firstRun = true` assignment inside the `if (firstRun)` branch
(judiciary.js line 140), so the flag is never lowered by an election. -/
def step (st : AgentState) : Healthcare.Event → Option (AgentState × List Healthcare.Call)
  | Healthcare.Event.added id _ fetched =>
    if st.servers.any (fun s => s.id == id) then some (st, [])
    else some ({ st with servers := Healthcare.addServer st.servers fetched }, [])
  | Healthcare.Event.removed d =>
    if !st.isLeader then
      if d.state == "leader" then
        some ({ st with pendingRemovals := st.pendingRemovals ++ [d] }, [])
      else
        some (st, [])
    else handleRemoval st d
  | Healthcare.Event.elected =>
    let st0 := { st with isLeader := true }
    match drainPending st0 st.pendingRemovals with
    | none => none
    | some (st1, calls) =>
      let st2 := { st1 with pendingRemovals := [] }
      if st2.firstRun then
        some ({ st2 with firstRun := true },
              calls ++ st2.groups.flatMap (fun g => balanceCalls st2.servers g))
      else some (st2, calls)
  | Healthcare.Event.leader _ =>
    some ({ st with pendingRemovals := [], isLeader := false, firstRun := false }, [])

/-- Run a list of events through judiciary's `step`. -/
def runTrace (st : AgentState) :
    List Healthcare.Event → Option (AgentState × List Healthcare.Call)
  | [] => some (st, [])
  | e :: rest =>
    match step st e with
    | none => none
    | some (st1, calls) =>
      match runTrace st1 rest with
      | none => none
      | some (st2, more) => some (st2, calls ++ more)

end Judiciary

/-! Concrete fixtures shared by the claim theorems below. -/

/-- A provisioning template taken from the README example. -/
def cfgA : Healthcare.Config :=
  { name := "TEST", region := "nyc3", size := "s-1vcpu-1gb", image := "ubuntu-16-04-x64",
    ssh_keys := [], backups := false, ipv6 := false, private_networking := true,
    user_data := "", monitoring := true, volumes := [], tags := ["ENV:Test", "healthcare"] }

/-- A second template, distinguishable from `cfgA`. -/
def cfgB : Healthcare.Config := { cfgA with name := "OTHER" }

/-- A node whose only tag is the configured fleet tag of a fleet configured
with tag "fleet". -/
def serverFleet : Healthcare.Server :=
  { id := "7", name := "n7", region := "nyc3", tags := ["fleet"],
    privateIp := some "10.0.0.7", publicIp := none }

/-- A group with empty match tags and desired size 1. -/
def gNoTags : Healthcare.Group :=
  { tags := [], size := 1, floatingIp := none, config := cfgA, democracy := none }

/-- A node tagged only "healthcare". -/
def serverA : Healthcare.Server :=
  { id := "a1", name := "a", region := "nyc3", tags := ["healthcare"],
    privateIp := some "10.0.0.2", publicIp := none }

/-- A second node tagged only "healthcare", reachable by public ip. -/
def serverB : Healthcare.Server :=
  { id := "b1", name := "b", region := "nyc3", tags := ["healthcare"],
    privateIp := none, publicIp := some "2.2.2.2" }

/-- A node tagged only "A". -/
def serverX : Healthcare.Server :=
  { id := "x1", name := "x", region := "nyc3", tags := ["A"],
    privateIp := none, publicIp := some "1.2.3.4" }

/-- A group matching tags "A" and "B". -/
def gAB : Healthcare.Group :=
  { tags := ["A", "B"], size := 1, floatingIp := none, config := cfgA, democracy := none }

/-- A group with empty match tags and template `cfgB`. -/
def gNone : Healthcare.Group :=
  { tags := [], size := 1, floatingIp := none, config := cfgB, democracy := none }

/-- A leader agent, fleet tag configured as "fleet", whose Registry holds
exactly `serverFleet` and whose only group is `gNoTags`. -/
def stC1 : Healthcare.AgentState :=
  { tag := "fleet", port := 12345, id := "7", localIp := "10.0.0.7",
    tags := some ["fleet"], servers := [serverFleet], groups := [gNoTags],
    pendingRemovals := [], isLeader := true, firstRun := false }

/-- A leader agent holding `serverX` and the groups `gAB` and `gNone`. -/
def stC3 : Healthcare.AgentState :=
  { tag := "healthcare", port := 12345, id := "l1", localIp := "10.0.0.1",
    tags := some ["healthcare"], servers := [serverX], groups := [gAB, gNone],
    pendingRemovals := [], isLeader := true, firstRun := false }

/-- A fresh non-leader Healthcare agent with one registered group and an
empty Registry. -/
def hcStC4 : Healthcare.AgentState :=
  { tag := "healthcare", port := 12345, id := "1", localIp := "10.0.0.1",
    tags := some ["healthcare"], servers := [], groups := [gNoTags],
    pendingRemovals := [], isLeader := false, firstRun := true }

/-- A fresh non-leader Judiciary agent with one registered group and an
empty Registry. -/
def jStC4 : Judiciary.AgentState :=
  { servers := [], groups := [{ tags := [], size := 1, config := cfgA }],
    pendingRemovals := [], isLeader := false, firstRun := true }

/-- A leader agent whose Registry holds only `serverA`. -/
def stC7 : Healthcare.AgentState :=
  { tag := "healthcare", port := 12345, id := "a1", localIp := "10.0.0.2",
    tags := some ["healthcare"], servers := [serverA], groups := [gNoTags],
    pendingRemovals := [], isLeader := true, firstRun := false }

/-! Claim theorems. -/

/-- C1, counterexample: on an agent constructed with fleet tag "fleet", the
node `serverFleet` with tag set T = set of "fleet" satisfies the spec's
predicate T subset of matchTags plus the configured fleet tag for the group
with empty matchTags, yet the code's membership filter (the one `balance`
counts with) rejects it, so `balance` sees zero members and issues a create
even though the claim predicts one member and no call. -/
theorem C1_counterexample :
    stC1.tag = "fleet" ∧
    Healthcare.specMemberOf stC1.tag gNoTags.tags serverFleet.tags = true ∧
    Healthcare.groupMembers stC1.servers gNoTags.tags = [] ∧
    Healthcare.balanceCalls stC1.servers gNoTags = [Healthcare.Call.create cfgA] :=
  ⟨rfl, by decide, by decide, by decide⟩

/-- C1, amended: a Registry entry is counted as a member of a group by
`balance` (and by the sub-election peer filter, which uses the same
`groupMembers`) iff every tag it carries is in the group's matchTags or
equals the literal string "healthcare"; the configured fleet tag plays no
part in the predicate. -/
theorem C1_amended (servers : List Healthcare.Server) (gtags : List String)
    (s : Healthcare.Server) :
    s ∈ Healthcare.groupMembers servers gtags ↔
      s ∈ servers ∧ ∀ t ∈ s.tags, t ∈ gtags ∨ t = "healthcare" := by
  simp [Healthcare.groupMembers, Healthcare.matchesGroup, List.mem_filter,
    List.all_eq_true]

/-- C2, counterexample: with two members and desired size 1, `balance`
issues the destroy on the registry-order first member but leaves the
Registry unchanged — the destroyed member's entry is still present, where
the claim says it is removed immediately. -/
theorem C2_counterexample :
    Healthcare.balance [serverA, serverB] gNoTags =
      ([serverA, serverB], [Healthcare.Call.destroy serverA.id]) ∧
    serverA ∈ (Healthcare.balance [serverA, serverB] gNoTags).1 :=
  ⟨by decide, by decide⟩

/-- C2, amended: `balance` computes diff as desired size minus member count;
a positive diff issues exactly diff creates of the group template, a
negative diff issues destroys on exactly the registry-order prefix of the
members of length abs diff, a zero diff issues nothing — and in every case
the Registry is left unchanged (entries of destroyed members are dropped
later, by the removed-event pipeline, not by `balance`). -/
theorem C2_amended (servers : List Healthcare.Server) (g : Healthcare.Group) :
    Healthcare.balance servers g =
      (servers,
        if (Healthcare.groupMembers servers g.tags).length < g.size then
          List.replicate (g.size - (Healthcare.groupMembers servers g.tags).length)
            (Healthcare.Call.create g.config)
        else
          ((Healthcare.groupMembers servers g.tags).take
              ((Healthcare.groupMembers servers g.tags).length - g.size)).map
            (fun s => Healthcare.Call.destroy s.id)) := by
  unfold Healthcare.balance Healthcare.balanceCalls
  set members := Healthcare.groupMembers servers g.tags with hm
  by_cases hlt : members.length < g.size
  · have h1 : (0 : Int) < (g.size : Int) - (members.length : Int) := by
      omega
    have h2 : ((g.size : Int) - (members.length : Int)).toNat = g.size - members.length := by
      omega
    simp [h1, hlt, h2, List.map_const']
  · have h1 : ¬ (0 : Int) < (g.size : Int) - (members.length : Int) := by
      omega
    have h2 : ((g.size : Int) - (members.length : Int)).natAbs = members.length - g.size := by
      omega
    by_cases heq : members.length = g.size
    · have h3 : ¬ (g.size : Int) - (members.length : Int) < 0 := by omega
      simp [h1, h3, hlt, heq]
    · have h3 : (g.size : Int) - (members.length : Int) < 0 := by omega
      simp [h1, h3, hlt, h2]

/-- C6, counterexample: from an empty Registry and a group of desired size
1, a second `balance` with no intervening Registry change issues a create
again — it is not a no-op. -/
theorem C6_counterexample :
    (Healthcare.balance (Healthcare.balance [] gNoTags).1 gNoTags).2 =
      [Healthcare.Call.create cfgA] ∧
    [Healthcare.Call.create cfgA] ≠ ([] : List Healthcare.Call) :=
  ⟨by decide, by decide⟩

/-- C6, amended: `balance` never modifies the Registry, so a second call
with no intervening change replays exactly the calls of the first; the
second call is a no-op precisely when the group's member count already
equals its desired size. -/
theorem C6_amended (servers : List Healthcare.Server) (g : Healthcare.Group) :
    Healthcare.balance (Healthcare.balance servers g).1 g = Healthcare.balance servers g ∧
    ((Healthcare.balance servers g).2 = [] ↔
      (Healthcare.groupMembers servers g.tags).length = g.size) := by
  refine ⟨rfl, ?_⟩
  unfold Healthcare.balance Healthcare.balanceCalls
  set members := Healthcare.groupMembers servers g.tags with hm
  by_cases hlt : members.length < g.size
  · have h1 : (0 : Int) < (g.size : Int) - (members.length : Int) := by omega
    have h2 : ((g.size : Int) - (members.length : Int)).toNat ≠ 0 := by omega
    simp [h1, List.map_const']
    constructor
    · intro h
      exact absurd h (by simpa using h2)
    · omega
  · by_cases heq : members.length = g.size
    · have h1 : ¬ (0 : Int) < (g.size : Int) - (members.length : Int) := by omega
      have h3 : ¬ (g.size : Int) - (members.length : Int) < 0 := by omega
      simp [h1, h3, heq]
    · have h1 : ¬ (0 : Int) < (g.size : Int) - (members.length : Int) := by omega
      have h3 : (g.size : Int) - (members.length : Int) < 0 := by omega
      have hlen : members ≠ [] := by
        intro hnil
        rw [hnil] at h3
        simp at h3
        omega
      simp [h1, h3, heq]
      exact ⟨by omega, hlen⟩

/-- C7: a `removed` event for an id absent from the Registry does not make
the leader's handler ignore the event — `getServer` yields nothing and the
handler throws (modelled as `none`: in the source, `this.destroy(server.id)`
dereferences `undefined` and the resulting TypeError is caught nowhere in
the handler), contradicting the claimed ignore-and-return behavior. -/
theorem C7_unknown_id_throws :
    Healthcare.getServer stC7.servers "ghost" = none ∧
    Healthcare.step stC7 (Healthcare.Event.removed { id := "ghost", state := "citizen" }) =
      none :=
  ⟨by decide, by decide⟩

/-- C4: from identical fresh states with one group and an empty Registry, a
Healthcare agent elected twice rebalances only on the first election (one
create in total), while a Judiciary agent — whose `elected` handler
reassigns `firstRun = true` inside the `if (firstRun)` branch — rebalances
on both elections (two creates in total), contradicting the claim that only
the very first election triggers a fleet-wide rebalance. -/
theorem C4_firstRun_bug :
    Healthcare.runTrace hcStC4 [Healthcare.Event.elected, Healthcare.Event.elected] =
      some ({ hcStC4 with isLeader := true, firstRun := false },
            [Healthcare.Call.create cfgA]) ∧
    Judiciary.runTrace jStC4 [Healthcare.Event.elected, Healthcare.Event.elected] =
      some ({ jStC4 with isLeader := true },
            [Healthcare.Call.create cfgA, Healthcare.Call.create cfgA]) :=
  ⟨by decide, by decide⟩

/-- C9, counterexample: the token "x" is drawn from the configured shortid
alphabet, yet the name `create` generates for a template whose base name
carries an underscore does contain an underscore — the claim's "the
generated name never contains an underscore" fails for such templates. -/
theorem C9_counterexample :
    (∀ c ∈ "x".toList, c ∈ Healthcare.shortidCharacters.toList) ∧
    '_' ∈ (Healthcare.createRequest { cfgA with name := "my_app" } "x").name.toList :=
  ⟨by decide, by decide⟩

/-- C9, amended: every create call names the instance as the template base
name, a dash, and the shortid token; tokens drawn from the configured
alphabet consist only of digits, letters, dash and dot, so the generated
name contains an underscore only if the template's base name already does. -/
theorem C9_amended (config : Healthcare.Config) (token : String)
    (h : ∀ c ∈ token.toList, c ∈ Healthcare.shortidCharacters.toList) :
    (Healthcare.createRequest config token).name = config.name ++ "-" ++ token ∧
    (∀ c ∈ token.toList, c.isDigit ∨ c.isAlpha ∨ c = '-' ∨ c = '.') ∧
    ('_' ∈ (Healthcare.createRequest config token).name.toList →
      '_' ∈ config.name.toList) := by
  refine ⟨rfl, ?_, ?_⟩
  · intro c hc
    have halpha : ∀ c ∈ Healthcare.shortidCharacters.toList,
        c.isDigit ∨ c.isAlpha ∨ c = '-' ∨ c = '.' := by decide
    exact halpha c (h c hc)
  · intro hmem
    have hsplit : (Healthcare.createRequest config token).name.toList =
        config.name.toList ++ ('-' :: token.toList) := by
      show (config.name ++ "-" ++ token).toList = _
      simp [String.toList]
    rw [hsplit] at hmem
    rcases List.mem_append.mp hmem with hn | ht
    · exact hn
    · rcases List.mem_cons.mp ht with hdash | htok
      · exact absurd hdash (by decide)
      · have : '_' ∈ Healthcare.shortidCharacters.toList := h '_' htok
        exact absurd this (by decide)

/-- C9, witness for the amended theorem at the token "ab7" and template
`cfgA`. -/
theorem C9_amended_witness :
    (∀ c ∈ "ab7".toList, c ∈ Healthcare.shortidCharacters.toList) ∧
    ((Healthcare.createRequest cfgA "ab7").name = cfgA.name ++ "-" ++ "ab7" ∧
    (∀ c ∈ "ab7".toList, c.isDigit ∨ c.isAlpha ∨ c = '-' ∨ c = '.') ∧
    ('_' ∈ (Healthcare.createRequest cfgA "ab7").name.toList →
      '_' ∈ cfgA.name.toList)) :=
  ⟨by decide, C9_amended cfgA "ab7" (by decide)⟩

/-- C10: calling `group` on the freshly constructed agent state — before
`init` has resolved, so `this.tags` is still undefined — throws a TypeError
at the membership evaluation, before the group is pushed or anything else
happens: the error carries the agent state at the throw point, which is the
constructor state itself, with its groups list still empty. -/
theorem C10_group_before_init (tag : String) (port : Nat) (tags : List String)
    (size : Nat) (floatingIp : Option String) (config : Healthcare.Config) :
    Healthcare.group (Healthcare.constructorState tag port) tags size floatingIp config =
      Except.error ("TypeError: this.tags is undefined",
        Healthcare.constructorState tag port) ∧
    (Healthcare.constructorState tag port).groups = [] :=
  ⟨rfl, rfl⟩

/-- C3, counterexample: the leader observes `removed` for `serverX` (tags:
only "A"). Group `gAB` (matchTags "A","B") shares tag "A" with the departed
node, so the claim says it is re-balanced — but the code's filter requires
every group tag to be among the node's tags or "healthcare", so `gAB` is
skipped and no `cfgA` create is issued; group `gNone` (empty matchTags)
shares no tag, so the claim says it is left alone — but the code's filter
accepts it vacuously and a `cfgB` create is issued. -/
theorem C3_counterexample :
    Healthcare.step stC3 (Healthcare.Event.removed { id := "x1", state := "citizen" }) =
      some ({ stC3 with servers := [] },
            [Healthcare.Call.destroy "x1", Healthcare.Call.create cfgB]) ∧
    gAB.tags.inter serverX.tags ≠ [] ∧
    gNone.tags.inter serverX.tags = [] ∧
    Healthcare.Call.create cfgA ∉
      [Healthcare.Call.destroy "x1", Healthcare.Call.create cfgB] :=
  ⟨by decide, by decide, by decide, by decide⟩

/-- C3, amended: on `removed(d)` a non-leader appends `d` to the
pending-removal buffer iff the departed peer's state was "leader" and
otherwise changes nothing, issuing no call either way; a leader whose
Registry contains the departed id destroys that node, drops the first
matching Registry entry, and re-balances exactly those groups all of whose
matchTags are among the departed node's tags or equal the literal
"healthcare" (not the groups whose tag sets merely intersect it). -/
theorem C3_amended (st : Healthcare.AgentState) (d : Healthcare.RemovedData) :
    (st.isLeader = false →
      Healthcare.step st (Healthcare.Event.removed d) =
        some (if d.state == "leader"
              then { st with pendingRemovals := st.pendingRemovals ++ [d] }
              else st, [])) ∧
    (st.isLeader = true →
      ∀ server, Healthcare.getServer st.servers d.id = some server →
        Healthcare.step st (Healthcare.Event.removed d) =
          some ({ st with servers := Healthcare.removeFirstById st.servers d.id },
                Healthcare.Call.destroy server.id ::
                  (st.groups.filter (fun g =>
                      g.tags.all (fun tag =>
                        server.tags.contains tag || tag == "healthcare"))).flatMap
                    (fun g => Healthcare.balanceCalls
                      (Healthcare.removeFirstById st.servers d.id) g))) := by
  constructor
  · intro hl
    simp only [Healthcare.step, hl, Bool.not_false, if_true]
    by_cases hs : (d.state == "leader") = true
    · simp [hs]
    · simp [hs, Bool.of_not_eq_true hs]
  · intro hl server hserver
    simp [Healthcare.step, hl, Healthcare.handleRemoval, hserver]

/-- C3, witness for the amended theorem: the leader case at `stC3` with the
removal of `serverX`. -/
theorem C3_amended_witness :
    stC3.isLeader = true ∧
    Healthcare.getServer stC3.servers "x1" = some serverX ∧
    Healthcare.step stC3 (Healthcare.Event.removed { id := "x1", state := "citizen" }) =
      some ({ stC3 with servers := Healthcare.removeFirstById stC3.servers "x1" },
            Healthcare.Call.destroy serverX.id ::
              (stC3.groups.filter (fun g =>
                  g.tags.all (fun tag =>
                    serverX.tags.contains tag || tag == "healthcare"))).flatMap
                (fun g => Healthcare.balanceCalls
                  (Healthcare.removeFirstById stC3.servers "x1") g)) :=
  ⟨rfl, by decide,
    (C3_amended stC3 { id := "x1", state := "citizen" }).2 rfl serverX (by decide)⟩

/-! Helper lemmas about the pending-removal buffer. -/

/-- `handleRemoval` never touches the pending-removal buffer. -/
theorem handleRemoval_pending (st : Healthcare.AgentState) (d : Healthcare.RemovedData)
    (st1 : Healthcare.AgentState) (calls : List Healthcare.Call)
    (h : Healthcare.handleRemoval st d = some (st1, calls)) :
    st1.pendingRemovals = st.pendingRemovals := by
  unfold Healthcare.handleRemoval at h
  cases hg : Healthcare.getServer st.servers d.id with
  | none => rw [hg] at h; cases h
  | some server =>
    rw [hg] at h
    simp only [Option.some.injEq, Prod.mk.injEq] at h
    rw [← h.1]

/-- Draining the buffer through `handleRemoval` never touches the buffer
field itself. -/
theorem drainPending_pending (pend : List Healthcare.RemovedData) :
    ∀ (st : Healthcare.AgentState) (out : Healthcare.AgentState × List Healthcare.Call),
      Healthcare.drainPending st pend = some out →
      out.1.pendingRemovals = st.pendingRemovals := by
  induction pend with
  | nil =>
    intro st out h
    simp only [Healthcare.drainPending, Option.some.injEq] at h
    rw [← h]
  | cons d rest ih =>
    intro st out h
    unfold Healthcare.drainPending at h
    cases h1 : Healthcare.handleRemoval st d with
    | none => rw [h1] at h; cases h
    | some p =>
      obtain ⟨st1, calls⟩ := p
      rw [h1] at h
      dsimp only at h
      cases h2 : Healthcare.drainPending st1 rest with
      | none => rw [h2] at h; cases h
      | some q =>
        obtain ⟨st2, more⟩ := q
        rw [h2] at h
        dsimp only at h
        injection h with h
        subst h
        calc st2.pendingRemovals
            = st1.pendingRemovals := ih st1 (st2, more) h2
          _ = st.pendingRemovals := handleRemoval_pending st d st1 calls h1

/-- A leadership-transition event leaves the buffer empty. -/
theorem step_leadership_clears (st : Healthcare.AgentState) (e : Healthcare.Event)
    (out : Healthcare.AgentState × List Healthcare.Call)
    (he : Healthcare.isLeadershipEvent e = true)
    (h : Healthcare.step st e = some out) :
    out.1.pendingRemovals = [] := by
  cases e with
  | added id state fetched =>
    have hstate : (state == "leader") = true := by
      simpa [Healthcare.isLeadershipEvent] using he
    simp only [Healthcare.step, hstate, if_true] at h
    by_cases ha : ({ st with pendingRemovals := [], firstRun := false } :
        Healthcare.AgentState).servers.any (fun s => s.id == id) = true
    · rw [if_pos ha] at h
      injection h with h
      rw [← h]
    · rw [if_neg ha] at h
      injection h with h
      rw [← h]
  | removed d => simp [Healthcare.isLeadershipEvent] at he
  | elected =>
    simp only [Healthcare.step] at h
    cases hd : Healthcare.drainPending { st with isLeader := true } st.pendingRemovals with
    | none => rw [hd] at h; cases h
    | some p =>
      obtain ⟨st1, calls⟩ := p
      rw [hd] at h
      dsimp only at h
      by_cases hf : ({ st1 with pendingRemovals := [] } :
          Healthcare.AgentState).firstRun = true
      · rw [if_pos hf] at h
        injection h with h
        rw [← h]
      · rw [if_neg hf] at h
        injection h with h
        rw [← h]
  | leader id =>
    simp only [Healthcare.step] at h
    injection h with h
    rw [← h]

/-- A step on any event that is not the removal of a leader preserves an
empty buffer. -/
theorem step_preserves_empty_pending (st : Healthcare.AgentState) (e : Healthcare.Event)
    (out : Healthcare.AgentState × List Healthcare.Call)
    (hp : st.pendingRemovals = [])
    (he : Healthcare.isLeaderRemoval e = false)
    (h : Healthcare.step st e = some out) :
    out.1.pendingRemovals = [] := by
  cases e with
  | added id state fetched =>
    by_cases hstate : (state == "leader") = true
    · exact step_leadership_clears st (Healthcare.Event.added id state fetched) out
        (by simpa [Healthcare.isLeadershipEvent] using hstate) h
    · replace hstate : (state == "leader") = false := by
        cases hb : state == "leader"
        · rfl
        · exact absurd hb hstate
      simp only [Healthcare.step, hstate, Bool.false_eq_true, if_false] at h
      by_cases ha : st.servers.any (fun s => s.id == id) = true
      · rw [if_pos ha] at h
        injection h with h
        rw [← h]
        exact hp
      · rw [if_neg ha] at h
        injection h with h
        rw [← h]
        exact hp
  | removed d =>
    have hd : (d.state == "leader") = false := by
      simpa [Healthcare.isLeaderRemoval] using he
    by_cases hl : st.isLeader = true
    · simp only [Healthcare.step, hl, Bool.not_true, Bool.false_eq_true, if_false] at h
      have hpres := handleRemoval_pending st d out.1 out.2 (by rw [h])
      rw [hpres]
      exact hp
    · replace hl : st.isLeader = false := by
        cases hb : st.isLeader
        · rfl
        · exact absurd hb hl
      simp only [Healthcare.step, hl, Bool.not_false, if_true, hd, Bool.false_eq_true,
        if_false] at h
      injection h with h
      rw [← h]
      exact hp
  | elected =>
    exact step_leadership_clears st Healthcare.Event.elected out rfl h
  | leader id =>
    exact step_leadership_clears st (Healthcare.Event.leader id) out rfl h

/-- A trace free of leader removals preserves an empty buffer. -/
theorem runTrace_preserves_empty_pending (evs : List Healthcare.Event) :
    ∀ (st : Healthcare.AgentState) (out : Healthcare.AgentState × List Healthcare.Call),
      st.pendingRemovals = [] →
      (∀ ev ∈ evs, Healthcare.isLeaderRemoval ev = false) →
      Healthcare.runTrace st evs = some out →
      out.1.pendingRemovals = [] := by
  induction evs with
  | nil =>
    intro st out hp _ h
    simp only [Healthcare.runTrace] at h
    injection h with h
    rw [← h]
    exact hp
  | cons e rest ih =>
    intro st out hp hall h
    unfold Healthcare.runTrace at h
    cases h1 : Healthcare.step st e with
    | none => rw [h1] at h; cases h
    | some p =>
      obtain ⟨st1, calls⟩ := p
      rw [h1] at h
      dsimp only at h
      cases h2 : Healthcare.runTrace st1 rest with
      | none => rw [h2] at h; cases h
      | some q =>
        obtain ⟨st2, more⟩ := q
        rw [h2] at h
        dsimp only at h
        injection h with h
        subst h
        have hst1 : st1.pendingRemovals = [] :=
          step_preserves_empty_pending st e (st1, calls) hp
            (hall e (List.mem_cons_self e rest)) h1
        exact ih st1 (st2, more) hst1
          (fun ev hev => hall ev (List.mem_cons_of_mem e hev)) h2

/-- C5: after any leadership-transition event (a local `elected`, a remote
`leader`, or an `added` announcing state "leader"), and as long as no
subsequent leader removal is observed, the pending-removal buffer is empty —
in particular every leadership transition itself leaves the buffer empty
(take the rest of the trace empty). -/
theorem C5_buffer_invariant (st : Healthcare.AgentState) (e : Healthcare.Event)
    (rest : List Healthcare.Event)
    (out : Healthcare.AgentState × List Healthcare.Call)
    (he : Healthcare.isLeadershipEvent e = true)
    (hrest : ∀ ev ∈ rest, Healthcare.isLeaderRemoval ev = false)
    (hrun : Healthcare.runTrace st (e :: rest) = some out) :
    out.1.pendingRemovals = [] := by
  unfold Healthcare.runTrace at hrun
  cases h1 : Healthcare.step st e with
  | none => rw [h1] at hrun; cases hrun
  | some p =>
    obtain ⟨st1, calls⟩ := p
    rw [h1] at hrun
    dsimp only at hrun
    cases h2 : Healthcare.runTrace st1 rest with
    | none => rw [h2] at hrun; cases hrun
    | some q =>
      obtain ⟨st2, more⟩ := q
      rw [h2] at hrun
      dsimp only at hrun
      injection hrun with hrun
      subst hrun
      have hst1 : st1.pendingRemovals = [] :=
        step_leadership_clears st e (st1, calls) he h1
      exact runTrace_preserves_empty_pending rest st1 (st2, more) hst1 hrest h2

/-- A non-leader agent that has buffered a leader's removal. -/
def stC5 : Healthcare.AgentState :=
  { tag := "healthcare", port := 12345, id := "a1", localIp := "10.0.0.2",
    tags := some ["healthcare"], servers := [serverA], groups := [gNoTags],
    pendingRemovals := [{ id := "q", state := "leader" }],
    isLeader := false, firstRun := true }

/-- C5, witness: from `stC5` (buffer non-empty), observing a remote `leader`
event followed by a citizen removal leaves the buffer empty. -/
theorem C5_buffer_invariant_witness :
    Healthcare.isLeadershipEvent (Healthcare.Event.leader "9") = true ∧
    (∀ ev ∈ [Healthcare.Event.removed { id := "r", state := "citizen" }],
      Healthcare.isLeaderRemoval ev = false) ∧
    ({ stC5 with pendingRemovals := [], isLeader := false, firstRun := false },
      ([] : List Healthcare.Call)).1.pendingRemovals = [] :=
  ⟨by decide, by decide,
    C5_buffer_invariant stC5 (Healthcare.Event.leader "9")
      [Healthcare.Event.removed { id := "r", state := "citizen" }]
      ({ stC5 with pendingRemovals := [], isLeader := false, firstRun := false }, [])
      (by decide) (by decide) (by decide)⟩

/-- C8: calling `group` after `init` registers exactly one new group, at
registration index equal to the previous group count; a sub-election
democracy is attached iff the group declares a non-empty floating ip and the
local agent satisfies the membership predicate, and in that case it is bound
to the local ip at base port plus the registration index, has the group's
members as peers, heartbeats every 3000 ms with a 10000 ms timeout, and its
sole `elected` subscriber issues the floating-ip action of type "assign"
for the group's floating ip and the local agent's id; otherwise no
sub-election democracy is attached. -/
theorem C8_subelection (st : Healthcare.AgentState) (tags : List String) (size : Nat)
    (floatingIp : Option String) (config : Healthcare.Config) (selfTags : List String)
    (h : st.tags = some selfTags) :
    ∃ (g : Healthcare.Group) (st1 : Healthcare.AgentState) (calls : List Healthcare.Call),
      Healthcare.group st tags size floatingIp config = Except.ok (st1, calls) ∧
      st1.groups = st.groups ++ [g] ∧
      g.tags = tags ∧ g.size = size ∧ g.floatingIp = floatingIp ∧ g.config = config ∧
      (Healthcare.subCond floatingIp selfTags tags = true →
        g.democracy = some
          { id := st.id
            source := st.localIp ++ ":" ++ toString (st.port + st.groups.length)
            peers := (Healthcare.groupMembers st.servers tags).map
              (fun s => Healthcare.peerEndpoint s st.port)
            interval := 3000
            timeout := 10000
            onElected := [Healthcare.Call.floatingIpAction (floatingIp.getD "")
              { type := "assign", droplet_id := st.id }] }) ∧
      (Healthcare.subCond floatingIp selfTags tags = false → g.democracy = none) := by
  unfold Healthcare.group
  rw [h]
  dsimp only
  cases floatingIp with
  | none =>
    dsimp only
    by_cases hl : st.isLeader = true
    · rw [if_pos hl]
      refine ⟨_, _, _, rfl, rfl, rfl, rfl, rfl, rfl, ?_, fun _ => rfl⟩
      intro hc
      simp [Healthcare.subCond, Healthcare.fipTruthy] at hc
    · rw [if_neg hl]
      refine ⟨_, _, _, rfl, rfl, rfl, rfl, rfl, rfl, ?_, fun _ => rfl⟩
      intro hc
      simp [Healthcare.subCond, Healthcare.fipTruthy] at hc
  | some fip =>
    dsimp only
    by_cases hc : ((fip != "") &&
        selfTags.all (fun tag => tags.contains tag || tag == "healthcare")) = true
    · rw [if_pos hc]
      have hc2 : Healthcare.subCond (some fip) selfTags tags = true := hc
      by_cases hl : st.isLeader = true
      · rw [if_pos hl]
        refine ⟨_, _, _, rfl, rfl, rfl, rfl, rfl, rfl, fun _ => rfl, ?_⟩
        intro hcf
        rw [hc2] at hcf
        cases hcf
      · rw [if_neg hl]
        refine ⟨_, _, _, rfl, rfl, rfl, rfl, rfl, rfl, fun _ => rfl, ?_⟩
        intro hcf
        rw [hc2] at hcf
        cases hcf
    · rw [if_neg hc]
      have hc2 : Healthcare.subCond (some fip) selfTags tags = false := by
        cases hb : Healthcare.subCond (some fip) selfTags tags
        · rfl
        · exact absurd hb hc
      by_cases hl : st.isLeader = true
      · rw [if_pos hl]
        refine ⟨_, _, _, rfl, rfl, rfl, rfl, rfl, rfl, ?_, fun _ => rfl⟩
        intro hcf
        rw [hc2] at hcf
        cases hcf
      · rw [if_neg hl]
        refine ⟨_, _, _, rfl, rfl, rfl, rfl, rfl, rfl, ?_, fun _ => rfl⟩
        intro hcf
        rw [hc2] at hcf
        cases hcf

/-- An initialized non-leader agent holding `serverA` and `serverB` and one
prior group (so the next registration index is 1). -/
def stC8 : Healthcare.AgentState :=
  { tag := "healthcare", port := 12345, id := "a1", localIp := "10.0.0.2",
    tags := some ["healthcare"], servers := [serverA, serverB], groups := [gNoTags],
    pendingRemovals := [], isLeader := false, firstRun := false }

/-- C8, witness: registering on `stC8` a group with empty matchTags, size 2
and floating ip "203.0.113.5" (whose member predicate the local agent
satisfies). -/
theorem C8_subelection_witness :
    stC8.tags = some ["healthcare"] ∧
    (∃ (g : Healthcare.Group) (st1 : Healthcare.AgentState) (calls : List Healthcare.Call),
      Healthcare.group stC8 [] 2 (some "203.0.113.5") cfgA = Except.ok (st1, calls) ∧
      st1.groups = stC8.groups ++ [g] ∧
      g.tags = [] ∧ g.size = 2 ∧ g.floatingIp = some "203.0.113.5" ∧ g.config = cfgA ∧
      (Healthcare.subCond (some "203.0.113.5") ["healthcare"] [] = true →
        g.democracy = some
          { id := stC8.id
            source := stC8.localIp ++ ":" ++ toString (stC8.port + stC8.groups.length)
            peers := (Healthcare.groupMembers stC8.servers []).map
              (fun s => Healthcare.peerEndpoint s stC8.port)
            interval := 3000
            timeout := 10000
            onElected := [Healthcare.Call.floatingIpAction ((some "203.0.113.5").getD "")
              { type := "assign", droplet_id := stC8.id }] }) ∧
      (Healthcare.subCond (some "203.0.113.5") ["healthcare"] [] = false →
        g.democracy = none)) :=
  ⟨rfl, C8_subelection stC8 [] 2 (some "203.0.113.5") cfgA ["healthcare"] rfl⟩

/-- C1, witness for the amended membership characterization at `serverA`
and a group with empty matchTags. -/
theorem C1_amended_witness :
    serverA ∈ Healthcare.groupMembers [serverA] [] ↔
      serverA ∈ [serverA] ∧
        ∀ t ∈ serverA.tags, t ∈ ([] : List String) ∨ t = "healthcare" :=
  C1_amended [serverA] [] serverA
